import Mathlib

/-!
Shallow embedding of the vscode-ansible language server: the validation and
diagnostic-classification logic of `server/src/server.ts` and the
process-execution wrapper (`NodeExec`).  JavaScript strings are modelled as
Lean `String`s viewed as lists of characters; the ASCII-only string
operations the server performs (`trim`, `startsWith`, `substring`, `slice`,
`split(/\r?\n/g)`, `length`) are embedded as structurally recursive
functions over `List Char` so that they evaluate inside the kernel.
-/

namespace AnsibleLS

/-- Characters removed by JavaScript `String.prototype.trim` (the ASCII
whitespace characters: space, tab, line feed, carriage return, vertical tab,
form feed; the additional Unicode space characters JavaScript also trims play
no role for the server's ASCII prefixes). -/
def isJsWhitespace (c : Char) : Bool :=
  c == ' ' || c == '\t' || c == '\n' || c == '\r' || c == '\x0b' || c == '\x0c'

/-- JavaScript `s.trim()`: remove whitespace from both ends. -/
def jsTrim (s : String) : String :=
  String.mk (((s.toList.dropWhile isJsWhitespace).reverse.dropWhile isJsWhitespace).reverse)

/-- `startsWithChars s pat` is true when `pat` is an initial segment of `s`. -/
def startsWithChars : List Char → List Char → Bool
  | _, [] => true
  | [], _ => false
  | c :: cs, p :: ps => c == p && startsWithChars cs ps

/-- JavaScript `s.startsWith(pat)`. -/
def jsStartsWith (s pat : String) : Bool :=
  startsWithChars s.toList pat.toList

/-- JavaScript `s.substring(n)` for `0 ≤ n`, which on the server's ASCII
strings agrees with `s.slice(n)`: the characters of `s` from index `n` on. -/
def jsSubstring (s : String) (n : Nat) : String :=
  String.mk (s.toList.drop n)

/-- JavaScript `s.length` (for the ASCII strings involved here UTF-16 code
units and characters coincide). -/
def jsLength (s : String) : Nat :=
  s.toList.length

/-- Worker for `splitLines`: `acc` holds the current line, reversed. -/
def splitLinesAux : List Char → List Char → List String
  | [], acc => [String.mk acc.reverse]
  | '\r' :: '\n' :: rest, acc => String.mk acc.reverse :: splitLinesAux rest []
  | '\n' :: rest, acc => String.mk acc.reverse :: splitLinesAux rest []
  | c :: rest, acc => splitLinesAux rest (c :: acc)

/-- JavaScript `s.split(/\r?\n/g)`: split on `"\n"` or `"\r\n"`; a lone
carriage return is not a separator; `""` splits to `[""]`. -/
def splitLines (s : String) : List String :=
  splitLinesAux s.toList []

/-- The two `DiagnosticSeverity` values of `vscode-languageserver` that the
server uses. -/
inductive DiagnosticSeverity where
  | Error
  | Warning
deriving DecidableEq, Repr

/-- An LSP position: `line` and `character`. -/
structure Position where
  line : Nat
  character : Nat
deriving DecidableEq, Repr

/-- An LSP range; the source's `end` field is named `stop` here because
`end` is a Lean keyword. -/
structure Range where
  start : Position
  stop : Position
deriving DecidableEq, Repr

/-- An LSP diagnostic as built by the server: severity, range, message and
the fixed source tag. -/
structure Diagnostic where
  severity : DiagnosticSeverity
  range : Range
  message : String
  source : String
deriving DecidableEq, Repr

/-- `const WARNING = "[WARNING] "` (server.ts line 18). -/
def WARNING : String := "[WARNING] "

/-- `const ERROR = "ERROR! "` (server.ts line 19). -/
def ERROR : String := "ERROR! "

/-- The value of JavaScript `Number.MAX_VALUE`, the largest representable
IEEE-754 double — an integer, namely `(2^53 - 1) * 2^971`; written as a
literal so that it evaluates inside the kernel (see
`numberMaxValue_eq_pow`). -/
def numberMaxValue : Nat := 179769313486231570814527423731704356798070567525844996598917476803157260780028538760589558632766878171540458953514382464234321326889464182768467546703537516986049910576551282076245490090389328944075868508455133942304583236903222948165808559332123348274797826204144723168738177180919299881250404026184124858368

/-- The diagnostic pushed by `handler` for stderr line index `i` (server.ts
lines 111–119): zero-width range at `line = i`,
`character = Number.MAX_VALUE`, source `"ex"`. -/
def mkDiag (sev : DiagnosticSeverity) (i : Nat) (msg : String) : Diagnostic :=
  { severity := sev
    range := { start := { line := i, character := numberMaxValue }
               stop := { line := i, character := numberMaxValue } }
    message := msg
    source := "ex" }

/-- The per-line classification in `handler` (server.ts lines 93–107): trim
the line; a `"[WARNING] "` prefix yields a Warning whose message is the rest
of the trimmed line, otherwise an `"ERROR! "` prefix yields an Error
likewise, otherwise the line yields nothing (`sev = null`). -/
def classifyLine (line : String) : Option (DiagnosticSeverity × String) :=
  let t := jsTrim line
  if jsStartsWith t WARNING then some (.Warning, jsSubstring t (jsLength WARNING))
  else if jsStartsWith t ERROR then some (.Error, jsSubstring t (jsLength ERROR))
  else none

/-- The loop guard `problems < maxNumberOfProblems` (server.ts line 92).
`maxNumberOfProblems` is `undefined` (`none`) until the first
configuration-change event; in JavaScript any `<`-comparison against
`undefined` is `false`. -/
def ltMax (problems : Nat) : Option Int → Bool
  | none => false
  | some m => (problems : Int) < m

/-- The `for` loop of `handler` (server.ts lines 92–121): walk the stderr
lines with line index `i` and match count `problems`, pushing a diagnostic
for each matching line onto the accumulated list while
`problems < maxNumberOfProblems` holds. -/
def handlerLoop (maxp : Option Int) :
    List String → Nat → Nat → List Diagnostic → List Diagnostic
  | [], _, _, acc => acc
  | line :: rest, i, problems, acc =>
    if ltMax problems maxp then
      match classifyLine line with
      | some (sev, msg) =>
          handlerLoop maxp rest (i + 1) (problems + 1) (acc ++ [mkDiag sev i msg])
      | none => handlerLoop maxp rest (i + 1) problems acc
    else acc

/-- `handler` (server.ts lines 84–122) as a function of the current
`maxNumberOfProblems` and the captured stderr text: reset the process-wide
diagnostics list to `[]`, then run the classification loop over
`result.stderr.split(/\r?\n/g)` starting at line index 0 and problem
count 0. -/
def handlerDiagnostics (maxp : Option Int) (stderr : String) : List Diagnostic :=
  handlerLoop maxp (splitLines stderr) 0 0 []

/-- The `error` object `child_process.exec` hands its callback on failure;
only its `code` field is read (exec.ts line 24). -/
structure ExecError where
  code : Int
deriving DecidableEq, Repr

/-- Outcome of the spawned OS process: the `(error, stdout, stderr)` triple
that `child_process.exec` passes to its callback, `error` being `null`
(`none`) on success. -/
structure ProcOutcome where
  error : Option ExecError
  stdout : String
  stderr : String
deriving DecidableEq, Repr

/-- `ExecResult` (exec.ts lines 8–12): captured stdout and stderr and the
exit code, `none` while the field still holds `null`. -/
structure ExecResult where
  stdout : String := ""
  stderr : String := ""
  exitCode : Option Int := none
deriving DecidableEq, Repr

/-- The `ExecResult` handed to the caller's callback inside `NodeExec.exec`
(exec.ts lines 21–26): the captured stdout and stderr and
`exitCode = error ? error.code : 0`. -/
def NodeExec.deliveredResult (o : ProcOutcome) : ExecResult :=
  { stdout := o.stdout
    stderr := o.stderr
    exitCode := some (match o.error with | some e => e.code | none => 0) }

/-- `NodeExec.exec` (exec.ts lines 15–27): registers a single callback with
`child_process.exec`, which Node invokes once when the process terminates —
also when the program is missing or exits non-zero.  The embedding returns
the list of callback invocations, in order. -/
def NodeExec.exec {α : Type} (o : ProcOutcome) (handleResult : ExecResult → α) : List α :=
  [handleResult (NodeExec.deliveredResult o)]

/-- The process-wide mutable state of server.ts: the diagnostics list
(line 28) and the `maxNumberOfProblems` setting (line 74), which is
`undefined` (`none`) until a configuration-change event arrives. -/
structure ServerState where
  diagnostics : List Diagnostic
  maxNumberOfProblems : Option Int
deriving DecidableEq, Repr

/-- The argument of `connection.sendDiagnostics` (server.ts line 136). -/
structure PublishParams where
  uri : String
  diagnostics : List Diagnostic
deriving DecidableEq, Repr

/-- A `cli.exec` request (server.ts line 133): command name and argument
list. -/
structure SpawnCall where
  filename : String
  args : List String
deriving DecidableEq, Repr

/-- What one synchronous run of `validateTextDocument` does: the state it
leaves, the process spawn it issues (if any), and the diagnostics publish it
sends (if any).  The spawned process's callback (`handler`) runs only after
this returns — Node's event loop — and is embedded separately as
`handlerRun`. -/
structure ValidateOutcome where
  state : ServerState
  spawn : Option SpawnCall
  publish : Option PublishParams
deriving DecidableEq, Repr

/-- `validateTextDocument` (server.ts lines 124–137): a URI not starting
with `"file:"` returns immediately; otherwise the function issues
`cli.exec("ansible-playbook", args, handler)` with the fixed argument list —
the target path being `playbookUri.slice(7)` — and then immediately sends
the *current* process-wide diagnostics list for the document's URI. -/
def validateTextDocument (s : ServerState) (playbookUri : String) : ValidateOutcome :=
  if jsStartsWith playbookUri "file:" then
    { state := s
      spawn := some { filename := "ansible-playbook"
                      args := ["-i", "\"localhost,\"", "-c", "local", "--syntax-check",
                               jsSubstring playbookUri 7] }
      publish := some { uri := playbookUri, diagnostics := s.diagnostics } }
  else
    { state := s, spawn := none, publish := none }

/-- The callback `handler` (server.ts lines 84–122) as a state transformer:
replace the process-wide diagnostics list with the classification of
`result.stderr` under the current `maxNumberOfProblems`. -/
def handlerRun (s : ServerState) (result : ExecResult) : ServerState :=
  { s with diagnostics := handlerDiagnostics s.maxNumberOfProblems result.stderr }

/-- A JavaScript number-valued field as far as `x || 100` distinguishes it:
absent (`undefined`), `null`, or an integer. -/
inductive JsNumVal where
  | undef
  | null
  | num (n : Int)
deriving DecidableEq, Repr

/-- JavaScript `x || d` on such a field: `undefined`, `null` and `0` are
falsy and give `d`; any other number passes through unchanged. -/
def jsOr (x : JsNumVal) (d : Int) : Int :=
  match x with
  | .undef => d
  | .null => d
  | .num n => if n = 0 then d else n

/-- The `ansibleLanguageServer` settings object (server.ts lines 69–71). -/
structure AnsibleSettings where
  maxNumberOfProblems : JsNumVal
deriving DecidableEq, Repr

/-- The configuration-change payload `change.settings` (server.ts
lines 64–66); its nested `ansibleLanguageServer` object may be absent
(`none`). -/
structure Settings where
  ansibleLanguageServer : Option AnsibleSettings
deriving DecidableEq, Repr

/-- The resolution
`settings.ansibleLanguageServer.maxNumberOfProblems || 100` performed by
`connection.onDidChangeConfiguration` (server.ts line 79).  Reading
`.maxNumberOfProblems` off an absent nested object throws a `TypeError`;
the thrown case is `none`. -/
def resolveMaxNumberOfProblems (settings : Settings) : Option Int :=
  match settings.ansibleLanguageServer with
  | none => none
  | some a => some (jsOr a.maxNumberOfProblems 100)

/-- Sanity: the literal is exactly `(2^53 - 1) * 2^971`. -/
theorem numberMaxValue_eq_pow : numberMaxValue = (2 ^ 53 - 1) * 2 ^ 971 := by
  norm_num [numberMaxValue]

/-- Once the loop guard fails, the loop body never runs again. -/
theorem handlerLoop_stop (maxp : Option Int) (lines : List String) (i p : Nat)
    (acc : List Diagnostic) (h : ltMax p maxp = false) :
    handlerLoop maxp lines i p acc = acc := by
  cases lines with
  | nil => rfl
  | cons line rest => simp [handlerLoop, h]

/-- The push-style accumulator of the loop splits off as a prefix. -/
theorem handlerLoop_eq_append (maxp : Option Int) :
    ∀ (lines : List String) (i p : Nat) (acc : List Diagnostic),
      handlerLoop maxp lines i p acc = acc ++ handlerLoop maxp lines i p [] := by
  intro lines
  induction lines with
  | nil => intro i p acc; simp [handlerLoop]
  | cons line rest ih =>
    intro i p acc
    cases hg : ltMax p maxp with
    | false => simp [handlerLoop, hg]
    | true =>
      cases hc : classifyLine line with
      | none =>
        simp only [handlerLoop, hg, if_true]
        rw [hc]
        exact ih (i + 1) p acc
      | some sm =>
        obtain ⟨sev, msg⟩ := sm
        simp only [handlerLoop, hg, if_true]
        rw [hc]
        show handlerLoop maxp rest (i + 1) (p + 1) (acc ++ [mkDiag sev i msg])
          = acc ++ handlerLoop maxp rest (i + 1) (p + 1) ([] ++ [mkDiag sev i msg])
        rw [ih (i + 1) (p + 1) (acc ++ [mkDiag sev i msg]),
          ih (i + 1) (p + 1) ([] ++ [mkDiag sev i msg])]
        simp

/-- While `p < m` the loop emits at most `m - p` diagnostics. -/
theorem handlerLoop_length_le (m : Int) :
    ∀ (lines : List String) (i p : Nat), (p : Int) < m →
      ((handlerLoop (some m) lines i p []).length : Int) ≤ m - p := by
  intro lines
  induction lines with
  | nil =>
    intro i p hp
    simp [handlerLoop]
    omega
  | cons line rest ih =>
    intro i p hp
    have hg : ltMax p (some m) = true := by
      simp only [ltMax, decide_eq_true_eq]
      exact hp
    cases hc : classifyLine line with
    | none =>
      simp only [handlerLoop, hg, if_true]
      rw [hc]
      exact ih (i + 1) p hp
    | some sm =>
      obtain ⟨sev, msg⟩ := sm
      simp only [handlerLoop, hg, if_true]
      rw [hc]
      show ((handlerLoop (some m) rest (i + 1) (p + 1) ([] ++ [mkDiag sev i msg])).length : Int)
        ≤ m - p
      rw [handlerLoop_eq_append (some m) rest (i + 1) (p + 1) ([] ++ [mkDiag sev i msg])]
      by_cases hp1 : ((p : Int) + 1) < m
      · have hrec := ih (i + 1) (p + 1) (by push_cast; omega)
        simp only [List.length_append, List.nil_append, List.length_singleton]
        push_cast at hrec ⊢
        omega
      · have hstop : ltMax (p + 1) (some m) = false := by
          simp only [ltMax, decide_eq_false_iff_not]
          push_cast
          omega
        rw [handlerLoop_stop (some m) rest (i + 1) (p + 1) [] hstop]
        simp only [List.append_nil, List.nil_append, List.length_singleton]
        omega

/-- Every diagnostic the loop emits originates from a definite line index:
it is `mkDiag sev (i + j) msg` where line `j` of the remaining input
classifies to `(sev, msg)`. -/
theorem handlerLoop_mem (maxp : Option Int) :
    ∀ (lines : List String) (i p : Nat) (d : Diagnostic),
      d ∈ handlerLoop maxp lines i p [] →
      ∃ (j : Nat) (hj : j < lines.length) (sev : DiagnosticSeverity) (msg : String),
        classifyLine (lines.get ⟨j, hj⟩) = some (sev, msg) ∧ d = mkDiag sev (i + j) msg := by
  intro lines
  induction lines with
  | nil =>
    intro i p d hd
    simp [handlerLoop] at hd
  | cons line rest ih =>
    intro i p d hd
    cases hg : ltMax p maxp with
    | false =>
      rw [handlerLoop_stop maxp _ i p [] hg] at hd
      simp at hd
    | true =>
      cases hc : classifyLine line with
      | none =>
        have heq : handlerLoop maxp (line :: rest) i p [] = handlerLoop maxp rest (i + 1) p [] := by
          simp only [handlerLoop, hg, if_true]
          rw [hc]
        rw [heq] at hd
        obtain ⟨j, hj, sev, msg, hcl, hdm⟩ := ih (i + 1) p d hd
        refine ⟨j + 1, Nat.succ_lt_succ hj, sev, msg, hcl, ?_⟩
        rw [hdm]
        congr 1
        omega
      | some sm =>
        obtain ⟨sev, msg⟩ := sm
        have heq : handlerLoop maxp (line :: rest) i p []
            = mkDiag sev i msg :: handlerLoop maxp rest (i + 1) (p + 1) [] := by
          have h1 : handlerLoop maxp (line :: rest) i p []
              = handlerLoop maxp rest (i + 1) (p + 1) ([] ++ [mkDiag sev i msg]) := by
            simp only [handlerLoop, hg, if_true]
            rw [hc]
          rw [h1, handlerLoop_eq_append maxp rest (i + 1) (p + 1) ([] ++ [mkDiag sev i msg])]
          rfl
        rw [heq] at hd
        rcases List.mem_cons.mp hd with hdm | hdtail
        · exact ⟨0, Nat.succ_pos _, sev, msg, hc, by rw [hdm, Nat.add_zero]⟩
        · obtain ⟨j, hj, sev2, msg2, hcl, hdm⟩ := ih (i + 1) (p + 1) d hdtail
          refine ⟨j + 1, Nat.succ_lt_succ hj, sev2, msg2, hcl, ?_⟩
          rw [hdm]
          congr 1
          omega

/-- C3: for every stderr line, after trimming: a `"[WARNING] "` prefix makes
the loop emit a Warning diagnostic whose message is the remainder of the
trimmed line after the prefix and advance the problem count; otherwise an
`"ERROR! "` prefix makes it emit an Error diagnostic with the remainder as
message; otherwise the line emits no diagnostic and the problem count — the
problem-count budget — is left untouched. -/
theorem classify_prefix_cases (maxp : Option Int) (line : String) (rest : List String)
    (i p : Nat) (acc : List Diagnostic) (hbudget : ltMax p maxp = true) :
    (jsStartsWith (jsTrim line) WARNING = true →
      handlerLoop maxp (line :: rest) i p acc
        = handlerLoop maxp rest (i + 1) (p + 1)
            (acc ++ [mkDiag .Warning i (jsSubstring (jsTrim line) (jsLength WARNING))])) ∧
    (jsStartsWith (jsTrim line) WARNING = false →
      jsStartsWith (jsTrim line) ERROR = true →
      handlerLoop maxp (line :: rest) i p acc
        = handlerLoop maxp rest (i + 1) (p + 1)
            (acc ++ [mkDiag .Error i (jsSubstring (jsTrim line) (jsLength ERROR))])) ∧
    (jsStartsWith (jsTrim line) WARNING = false →
      jsStartsWith (jsTrim line) ERROR = false →
      handlerLoop maxp (line :: rest) i p acc = handlerLoop maxp rest (i + 1) p acc) := by
  refine ⟨fun hw => ?_, fun hw he => ?_, fun hw he => ?_⟩
  · simp [handlerLoop, hbudget, classifyLine, hw]
  · simp [handlerLoop, hbudget, classifyLine, hw, he]
  · simp [handlerLoop, hbudget, classifyLine, hw, he]

/-- Witness for C3: the spec's own examples, one line of each kind. -/
theorem classify_prefix_cases_witness :
    handlerLoop (some 1) ["[WARNING] syntax issue on line 4"] 0 0 []
      = [mkDiag .Warning 0 "syntax issue on line 4"] ∧
    handlerLoop (some 1) ["ERROR! bad module name"] 0 0 []
      = [mkDiag .Error 0 "bad module name"] ∧
    handlerLoop (some 1) ["plain text"] 5 0 [] = handlerLoop (some 1) [] 6 0 [] := by
  refine ⟨?_, ?_, ?_⟩
  · have h := (classify_prefix_cases (some 1) "[WARNING] syntax issue on line 4" [] 0 0 []
      (by decide)).1 (by decide)
    rw [h]
    decide
  · have h := (classify_prefix_cases (some 1) "ERROR! bad module name" [] 0 0 []
      (by decide)).2.1 (by decide) (by decide)
    rw [h]
    decide
  · exact (classify_prefix_cases (some 1) "plain text" [] 5 0 []
      (by decide)).2.2 (by decide) (by decide)

/-- C4: for every stderr input and every configured maximum `m`, the
classifier emits at most `m` diagnostics, the count is never negative, and
once `m` diagnostics have been emitted the loop stops scanning even if more
lines remain. -/
theorem classifier_respects_max (stderr : String) (m : Nat) :
    (handlerDiagnostics (some (m : Int)) stderr).length ≤ m ∧
    0 ≤ (handlerDiagnostics (some (m : Int)) stderr).length ∧
    ∀ (lines : List String) (i : Nat) (acc : List Diagnostic),
      handlerLoop (some (m : Int)) lines i m acc = acc := by
  refine ⟨?_, Nat.zero_le _, fun lines i acc => ?_⟩
  · by_cases hm : 0 < m
    · have h := handlerLoop_length_le (m : Int) (splitLines stderr) 0 0 (by push_cast; omega)
      unfold handlerDiagnostics
      push_cast at h
      omega
    · have hstop : ltMax 0 (some (m : Int)) = false := by
        simp only [ltMax, decide_eq_false_iff_not]
        push_cast
        omega
      unfold handlerDiagnostics
      rw [handlerLoop_stop _ _ 0 0 [] hstop]
      simp
  · refine handlerLoop_stop _ _ i m acc ?_
    simp only [ltMax, decide_eq_false_iff_not]
    omega

/-- C5: every diagnostic the classifier emits has a zero-width range
(`start = stop`) whose `character` is `Number.MAX_VALUE` and whose `line` is
the index, within the split stderr text, of the line the diagnostic
originates from — that line classifies to exactly this diagnostic's severity
and message. -/
theorem diag_position_policy (stderr : String) (maxp : Option Int) (d : Diagnostic)
    (hd : d ∈ handlerDiagnostics maxp stderr) :
    d.range.start = d.range.stop ∧
    d.range.start.character = numberMaxValue ∧
    ∃ hj : d.range.start.line < (splitLines stderr).length,
      classifyLine ((splitLines stderr).get ⟨d.range.start.line, hj⟩)
        = some (d.severity, d.message) := by
  obtain ⟨j, hj, sev, msg, hcl, hdm⟩ := handlerLoop_mem maxp (splitLines stderr) 0 0 d hd
  subst hdm
  refine ⟨rfl, rfl, ?_⟩
  simp only [mkDiag, Nat.zero_add]
  exact ⟨hj, hcl⟩

/-- Witness for C5: the single diagnostic produced from stderr
`"ERROR! bad"` satisfies the positioning policy. -/
theorem diag_position_policy_witness :
    (mkDiag .Error 0 "bad").range.start = (mkDiag .Error 0 "bad").range.stop ∧
    (mkDiag .Error 0 "bad").range.start.character = numberMaxValue ∧
    ∃ hj : (mkDiag .Error 0 "bad").range.start.line < (splitLines "ERROR! bad").length,
      classifyLine ((splitLines "ERROR! bad").get ⟨(mkDiag .Error 0 "bad").range.start.line, hj⟩)
        = some ((mkDiag .Error 0 "bad").severity, (mkDiag .Error 0 "bad").message) :=
  diag_position_policy "ERROR! bad" (some 1) (mkDiag .Error 0 "bad") (by decide)

/-- C6: before any configuration-change event `maxNumberOfProblems` is still
`undefined` (`none`), the loop guard is `false` for every problem count, and
the handler emits no diagnostics on any stderr input — also on input with
matching warning/error lines; the default of 100 appears only once a
configuration-change event has been processed. -/
theorem uninitialized_max_no_diagnostics :
    (∀ stderr : String, handlerDiagnostics none stderr = []) ∧
    (∀ p : Nat, ltMax p none = false) ∧
    handlerDiagnostics none "[WARNING] w\nERROR! e" = [] ∧
    resolveMaxNumberOfProblems
      { ansibleLanguageServer := some { maxNumberOfProblems := .undef } } = some 100 := by
  refine ⟨fun stderr => ?_, fun p => rfl, ?_, rfl⟩
  · exact handlerLoop_stop none (splitLines stderr) 0 0 [] rfl
  · exact handlerLoop_stop none (splitLines "[WARNING] w\nERROR! e") 0 0 [] rfl

/-- C1: on every validation of a file-scheme document, the published
diagnostics list is exactly the process-wide list held before the spawned
process's callback runs (the previous run's leftovers), and the
classification this run's callback produces is first published only on a
subsequent validation's publish. -/
theorem validate_publishes_stale (s : ServerState) (uri uri2 : String) (r : ExecResult)
    (h : jsStartsWith uri "file:" = true) (h2 : jsStartsWith uri2 "file:" = true) :
    (validateTextDocument s uri).publish
      = some { uri := uri, diagnostics := s.diagnostics } ∧
    (validateTextDocument s uri).state = s ∧
    (validateTextDocument (handlerRun (validateTextDocument s uri).state r) uri2).publish
      = some { uri := uri2,
               diagnostics := handlerDiagnostics s.maxNumberOfProblems r.stderr } := by
  refine ⟨?_, ?_, ?_⟩ <;> simp [validateTextDocument, handlerRun, h, h2]

/-- Witness for C1: a validation publishes the stale diagnostic; after the
callback classified `"[WARNING] w"`, the next validation publishes that
result. -/
theorem validate_publishes_stale_witness :
    (validateTextDocument
        { diagnostics := [mkDiag .Error 3 "old"], maxNumberOfProblems := some 100 }
        "file:///tmp/play.yml").publish
      = some { uri := "file:///tmp/play.yml", diagnostics := [mkDiag .Error 3 "old"] } ∧
    (validateTextDocument
        (handlerRun
          (validateTextDocument
            { diagnostics := [mkDiag .Error 3 "old"], maxNumberOfProblems := some 100 }
            "file:///tmp/play.yml").state
          { stdout := "", stderr := "[WARNING] w", exitCode := some 0 })
        "file:///tmp/play.yml").publish
      = some { uri := "file:///tmp/play.yml", diagnostics := [mkDiag .Warning 0 "w"] } := by
  have h := validate_publishes_stale
    { diagnostics := [mkDiag .Error 3 "old"], maxNumberOfProblems := some 100 }
    "file:///tmp/play.yml" "file:///tmp/play.yml"
    { stdout := "", stderr := "[WARNING] w", exitCode := some 0 }
    (by decide) (by decide)
  refine ⟨h.1, ?_⟩
  rw [h.2.2]
  decide

/-- C2 counterexample: a configuration payload whose nested
`ansibleLanguageServer` object is absent does *not* resolve to the default
of 100 — the handler throws a `TypeError` (`none`) while reading
`.maxNumberOfProblems` off `undefined`, before the `|| 100` fallback can
apply. -/
theorem config_malformed_not_default :
    resolveMaxNumberOfProblems { ansibleLanguageServer := none } ≠ some 100 := by
  decide

/-- C2 (amended): when the nested settings object is present, the resolved
maximum is 100 whenever the configured value is absent, `null` or `0`, and
the configured value otherwise; when the nested settings object is absent
the handler throws instead of falling back. -/
theorem config_fallback (settings : Settings) :
    (settings.ansibleLanguageServer = none →
      resolveMaxNumberOfProblems settings = none) ∧
    ∀ a : AnsibleSettings, settings.ansibleLanguageServer = some a →
      ((a.maxNumberOfProblems = .undef ∨ a.maxNumberOfProblems = .null ∨
          a.maxNumberOfProblems = .num 0) →
        resolveMaxNumberOfProblems settings = some 100) ∧
      ∀ n : Int, n ≠ 0 → a.maxNumberOfProblems = .num n →
        resolveMaxNumberOfProblems settings = some n := by
  obtain ⟨als⟩ := settings
  constructor
  · rintro rfl
    rfl
  · rintro ⟨v⟩ rfl
    constructor
    · rintro (h | h | h) <;> simp_all [resolveMaxNumberOfProblems, jsOr]
    · rintro n hn h
      simp_all [resolveMaxNumberOfProblems, jsOr]

/-- Witness for C2: explicit zero and `null` fall back to 100, the value 7
passes through, and the malformed payload throws. -/
theorem config_fallback_witness :
    resolveMaxNumberOfProblems
      { ansibleLanguageServer := some { maxNumberOfProblems := .num 0 } } = some 100 ∧
    resolveMaxNumberOfProblems
      { ansibleLanguageServer := some { maxNumberOfProblems := .null } } = some 100 ∧
    resolveMaxNumberOfProblems
      { ansibleLanguageServer := some { maxNumberOfProblems := .num 7 } } = some 7 ∧
    resolveMaxNumberOfProblems { ansibleLanguageServer := none } = none := by
  refine ⟨?_, ?_, ?_, ?_⟩
  · exact ((config_fallback
      { ansibleLanguageServer := some { maxNumberOfProblems := .num 0 } }).2
      { maxNumberOfProblems := .num 0 } rfl).1 (Or.inr (Or.inr rfl))
  · exact ((config_fallback
      { ansibleLanguageServer := some { maxNumberOfProblems := .null } }).2
      { maxNumberOfProblems := .null } rfl).1 (Or.inr (Or.inl rfl))
  · exact ((config_fallback
      { ansibleLanguageServer := some { maxNumberOfProblems := .num 7 } }).2
      { maxNumberOfProblems := .num 7 } rfl).2 7 (by decide) rfl
  · exact (config_fallback { ansibleLanguageServer := none }).1 rfl

/-- C7: for every document whose URI does not start with `"file:"`,
`validateTextDocument` is a no-op — state unchanged, no spawn, no
publish. -/
theorem validate_non_file_noop (s : ServerState) (uri : String)
    (h : jsStartsWith uri "file:" = false) :
    validateTextDocument s uri = { state := s, spawn := none, publish := none } := by
  simp [validateTextDocument, h]

/-- Witness for C7: an `untitled:` document triggers nothing. -/
theorem validate_non_file_noop_witness :
    validateTextDocument
        { diagnostics := [mkDiag .Error 0 "x"], maxNumberOfProblems := some 100 }
        "untitled:Untitled-1"
      = { state := { diagnostics := [mkDiag .Error 0 "x"], maxNumberOfProblems := some 100 },
          spawn := none, publish := none } :=
  validate_non_file_noop
    { diagnostics := [mkDiag .Error 0 "x"], maxNumberOfProblems := some 100 }
    "untitled:Untitled-1" (by decide)

/-- C8: for the document `file:///tmp/play.yml`, validation spawns
`ansible-playbook` with exactly the ordered arguments: the inventory flag,
the quoted literal localhost-only inventory, the connection flag, `local`,
the syntax-check flag, and `/tmp/play.yml` — the target path being the URI
minus its first 7 characters. -/
theorem validate_spawn_args (s : ServerState) :
    (validateTextDocument s "file:///tmp/play.yml").spawn
      = some { filename := "ansible-playbook"
               args := ["-i", "\"localhost,\"", "-c", "local", "--syntax-check",
                        "/tmp/play.yml"] } ∧
    jsSubstring "file:///tmp/play.yml" 7 = "/tmp/play.yml" := by
  have hg : jsStartsWith "file:///tmp/play.yml" "file:" = true := by decide
  refine ⟨?_, by decide⟩
  simp only [validateTextDocument, hg, if_true]
  decide

/-- C9: the process runner's callback fires exactly once, carrying the
captured stdout and stderr and an exit code that is 0 when no error was
reported and the error's code otherwise; failure is delivered through the
same single callback as normal completion. -/
theorem exec_callback_contract {α : Type} (o : ProcOutcome) (handleResult : ExecResult → α) :
    NodeExec.exec o handleResult = [handleResult (NodeExec.deliveredResult o)] ∧
    (NodeExec.deliveredResult o).stdout = o.stdout ∧
    (NodeExec.deliveredResult o).stderr = o.stderr ∧
    (∀ out err : String,
      (NodeExec.deliveredResult { error := none, stdout := out, stderr := err }).exitCode
        = some 0) ∧
    (∀ (c : Int) (out err : String),
      (NodeExec.deliveredResult
          { error := some { code := c }, stdout := out, stderr := err }).exitCode
        = some c) :=
  ⟨rfl, rfl, rfl, fun _ _ => rfl, fun _ _ _ => rfl⟩

/-- C10: a run of the handler fully replaces the process-wide diagnostics
list with exactly the classification of that run's stderr — the result does
not depend on whatever diagnostics were there before, so nothing predating
the run survives it. -/
theorem handler_replaces_diagnostics (ds ds2 : List Diagnostic) (maxp : Option Int)
    (r : ExecResult) :
    (handlerRun { diagnostics := ds, maxNumberOfProblems := maxp } r).diagnostics
      = handlerDiagnostics maxp r.stderr ∧
    (handlerRun { diagnostics := ds, maxNumberOfProblems := maxp } r).diagnostics
      = (handlerRun { diagnostics := ds2, maxNumberOfProblems := maxp } r).diagnostics ∧
    (handlerRun { diagnostics := ds, maxNumberOfProblems := maxp } r).maxNumberOfProblems
      = maxp :=
  ⟨rfl, rfl, rfl⟩

end AnsibleLS
